import Mathlib

/-!
# server.js: repository, lead query, credentials and gates

A shallow embedding of `src/server.js`.

* JavaScript values are the type `JsVal`: the primitives a JSON request body can carry
  (with integer numbers) and `Date` objects.  Objects are property lists in insertion order,
  read by own property only; a `Map` is a list of entries in insertion order.
* The module-level `storage` is passed explicitly: every method of `MemStorage` takes the
  store and returns its result together with the store it leaves behind.  The methods are
  `async` without an inner `await`, so each of them runs as one step.
* `new Date()`, `randomBytes` and `scrypt` are inputs of the functions that call them.
* Built-ins whose full definition lives in the engine (`toLowerCase`, `Date.parse`, the
  conversions between strings and numbers, `Array.prototype.sort`) are fields of `JsRuntime`;
  `v8ArraySort` is the sort of V8, the engine of Node.js, for arrays shorter than 64 elements.
* The options of `getLeads` are values of `JsVal`, `undefined` for an absent one.  Arrays and
  nested objects are not values of `JsVal`; where the code calls a string method on an option
  they behave as every other value that is no string.
* Counters are natural numbers (the loss of precision of `++` above `2 ^ 53` is not modelled).
-/

namespace Server

/-! ## Values, objects, maps -/

/-- Errors thrown by the built-ins that the modelled code calls. -/
inductive JsError where
  | typeError
  | rangeError
  deriving DecidableEq

/-- JavaScript values: `date none` is an invalid `Date`. -/
inductive JsVal where
  | undefined
  | null
  | bool (b : Bool)
  | num (n : Int)
  | str (s : String)
  | date (t : Option Int)
  deriving DecidableEq

/-- Objects: own properties in insertion order.  A list may name a key twice, as the text of
a JSON body may; then the last one counts, as for `JSON.parse`. -/
abbrev Obj := List (String × JsVal)

/-- The own property `k` of `o`, when it has one. -/
def findProp : Obj → String → Option JsVal
  | [], _ => none
  | kv :: rest, key => (findProp rest key).or (if kv.1 = key then some kv.2 else none)

/-- Property read `o[k]`: `undefined` when `o` has no own property `k`. -/
def getProp (o : Obj) (key : String) : JsVal := (findProp o key).getD .undefined

/-- Whether `o` has an own property `k`. -/
def hasProp (o : Obj) (key : String) : Bool := (findProp o key).isSome

/-- Property definition: an existing property keeps its place and takes the new value, a new
one is appended. -/
def setProp (o : Obj) (key : String) (v : JsVal) : Obj :=
  if hasProp o key then o.map (fun kv => if kv.1 = key then (kv.1, v) else kv)
  else o ++ [(key, v)]

/-- Spread `...source` into `target`: each property of `source` is defined on `target`. -/
def assign (target source : Obj) : Obj :=
  source.foldl (fun o kv => setProp o kv.1 kv.2) target

/-- One item of an object literal. -/
inductive Part where
  | prop (k : String) (v : JsVal)
  | spread (o : Obj)

/-- Object literal `{ ... }`, evaluated left to right. -/
def objectLiteral (parts : List Part) : Obj :=
  parts.foldl (fun o p => match p with
    | .prop k v => setProp o k v
    | .spread s => assign o s) []

/-- ToBoolean. -/
def truthy : JsVal → Bool
  | .undefined => false
  | .null => false
  | .bool b => b
  | .num n => n != 0
  | .str s => s != ""
  | .date _ => true

/-- Strict equality `===`; two `Date` objects are never the same object here. -/
def strictEq : JsVal → JsVal → Bool
  | .undefined, .undefined => true
  | .null, .null => true
  | .bool a, .bool b => a == b
  | .num a, .num b => a == b
  | .str a, .str b => a == b
  | _, _ => false

/-- A `Map`: entries in insertion order, keys compared as values. -/
abbrev JsMap := List (JsVal × Obj)

/-- `map.get(key)`. -/
def mapGet : JsMap → JsVal → Option Obj
  | [], _ => none
  | (k, v) :: rest, key => if k = key then some v else mapGet rest key

/-- `map.set(key, value)`: an existing entry keeps its place. -/
def mapSet : JsMap → JsVal → Obj → JsMap
  | [], key, v => [(key, v)]
  | (k, w) :: rest, key, v => if k = key then (k, v) :: rest else (k, w) :: mapSet rest key v

/-- `map.has(key)`. -/
def mapHas : JsMap → JsVal → Bool
  | [], _ => false
  | (k, _) :: rest, key => if k = key then true else mapHas rest key

/-- The entries left by `map.delete(key)`. -/
def mapErase : JsMap → JsVal → JsMap
  | [], _ => []
  | (k, w) :: rest, key => if k = key then rest else (k, w) :: mapErase rest key

/-- `Array.from(map.values())`. -/
def mapValues (m : JsMap) : List Obj := m.map Prod.snd

/-! ## MemStorage -/

/-- The fields of `class MemStorage` (the session store is left out). -/
structure MemStorage where
  users : JsMap
  leadStore : JsMap
  taskStore : JsMap
  userId : Nat
  leadId : Nat
  taskId : Nat
  deriving DecidableEq

/-- `getUser(id)`. -/
def getUser (s : MemStorage) (id : JsVal) : Option Obj := mapGet s.users id

/-- `getUserByUsername(username)`: the first user, in insertion order, with that username. -/
def getUserByUsername (s : MemStorage) (username : JsVal) : Option Obj :=
  (mapValues s.users).find? (fun user => strictEq (getProp user "username") username)

/-- `createUser(insertUser)`; `t1` and `t2` are the two readings of the clock. -/
def createUser (s : MemStorage) (insertUser : Obj) (t1 t2 : Int) : Obj × MemStorage :=
  let user := objectLiteral [
    .prop "id" (.num s.userId),
    .spread insertUser,
    .prop "isAdmin" (.bool (strictEq (getProp insertUser "username") (.str "admin@example.com"))),
    .prop "isApproved" (.bool (strictEq (getProp insertUser "username") (.str "admin@example.com"))),
    .prop "createdAt" (.date (some t1)),
    .prop "updatedAt" (.date (some t2))]
  (user, { s with userId := s.userId + 1, users := mapSet s.users (getProp user "id") user })

/-- `getAllUsers()`. -/
def getAllUsers (s : MemStorage) : List Obj := mapValues s.users

/-- `updateUserApproval(id, isApproved)`. -/
def updateUserApproval (s : MemStorage) (id : JsVal) (isApproved : JsVal) (t : Int) :
    Option Obj × MemStorage :=
  match mapGet s.users id with
  | some user =>
    let updatedUser := objectLiteral [
      .spread user, .prop "isApproved" isApproved, .prop "updatedAt" (.date (some t))]
    (some updatedUser, { s with users := mapSet s.users id updatedUser })
  | none => (none, s)

/-- `updateUserCredentials(id, username, password)`. -/
def updateUserCredentials (s : MemStorage) (id : JsVal) (username password : JsVal) (t : Int) :
    Option Obj × MemStorage :=
  match mapGet s.users id with
  | some user =>
    let updatedUser := objectLiteral [
      .spread user, .prop "username" username, .prop "password" password,
      .prop "updatedAt" (.date (some t))]
    (some updatedUser, { s with users := mapSet s.users id updatedUser })
  | none => (none, s)

/-- `deleteUser(id)`. -/
def deleteUser (s : MemStorage) (id : JsVal) : Bool × MemStorage :=
  (mapHas s.users id, { s with users := mapErase s.users id })

/-- `getLead(id)`. -/
def getLead (s : MemStorage) (id : JsVal) : Option Obj := mapGet s.leadStore id

/-- `createLead(insertLead)`. -/
def createLead (s : MemStorage) (insertLead : Obj) (t1 t2 : Int) : Obj × MemStorage :=
  let lead := objectLiteral [
    .prop "id" (.num s.leadId),
    .spread insertLead,
    .prop "assignedTo" .null,
    .prop "createdAt" (.date (some t1)),
    .prop "updatedAt" (.date (some t2))]
  (lead, { s with leadId := s.leadId + 1, leadStore := mapSet s.leadStore (getProp lead "id") lead })

/-- `updateLead(id, updateData)`. -/
def updateLead (s : MemStorage) (id : JsVal) (updateData : Obj) (t : Int) :
    Option Obj × MemStorage :=
  match mapGet s.leadStore id with
  | some lead =>
    let updatedLead := objectLiteral [
      .spread lead, .spread updateData, .prop "updatedAt" (.date (some t))]
    (some updatedLead, { s with leadStore := mapSet s.leadStore id updatedLead })
  | none => (none, s)

/-- `deleteLead(id)`. -/
def deleteLead (s : MemStorage) (id : JsVal) : Bool × MemStorage :=
  (mapHas s.leadStore id, { s with leadStore := mapErase s.leadStore id })

/-- `getTasks(leadId)`. -/
def getTasks (s : MemStorage) (leadId : JsVal) : List Obj :=
  let tasks := mapValues s.taskStore
  if truthy leadId then tasks.filter (fun task => strictEq (getProp task "leadId") leadId)
  else tasks

/-- `getTask(id)`. -/
def getTask (s : MemStorage) (id : JsVal) : Option Obj := mapGet s.taskStore id

/-- `createTask(insertTask)`. -/
def createTask (s : MemStorage) (insertTask : Obj) (t1 : Int) : Obj × MemStorage :=
  let task := objectLiteral [
    .prop "id" (.num s.taskId),
    .spread insertTask,
    .prop "createdAt" (.date (some t1))]
  (task, { s with taskId := s.taskId + 1, taskStore := mapSet s.taskStore (getProp task "id") task })

/-- `updateTask(id, completed)`. -/
def updateTask (s : MemStorage) (id : JsVal) (completed : JsVal) : Option Obj × MemStorage :=
  match mapGet s.taskStore id with
  | some task =>
    let updatedTask := objectLiteral [.spread task, .prop "completed" completed]
    (some updatedTask, { s with taskStore := mapSet s.taskStore id updatedTask })
  | none => (none, s)

/-- `deleteTask(id)`. -/
def deleteTask (s : MemStorage) (id : JsVal) : Bool × MemStorage :=
  (mapHas s.taskStore id, { s with taskStore := mapErase s.taskStore id })

/-- The stored password of the seeded administrator. -/
def adminPassword : String :=
  "$2a$10$8d969ee59e3de6c1b28ff85e5ead10f7e4c3d44b9c8e8e6ff4a7e5e8f0d5e2a1"

/-- The two leads of `sampleLeads`. -/
def sampleLeads : List Obj := [
  [("firstName", .str "Sarah"), ("lastName", .str "Williams"),
   ("email", .str "sarah.williams@example.com"), ("phone", .str "+1234567890"),
   ("company", .str "Tech Solutions Inc"), ("jobTitle", .str "Marketing Director"),
   ("status", .str "new"), ("source", .str "website"),
   ("notes", .str "Interested in our enterprise package")],
  [("firstName", .str "John"), ("lastName", .str "Davis"),
   ("email", .str "john.davis@example.com"), ("phone", .str "+1987654321"),
   ("company", .str "Global Marketing Co"), ("jobTitle", .str "CEO"),
   ("status", .str "contacted"), ("source", .str "referral"),
   ("notes", .str "Referred by existing client")]]

/-- `initializeSampleData()`; `clock i` is the `i`-th reading of the clock. -/
def initializeSampleData (s : MemStorage) (clock : Nat → Int) : MemStorage :=
  let user : Obj := [("username", .str "admin@example.com"), ("password", .str adminPassword),
    ("isAdmin", .bool true), ("isApproved", .bool true)]
  let s1 := (createUser s user (clock 0) (clock 1)).2
  (sampleLeads.foldl (fun (acc : MemStorage × Nat) lead =>
    ((createLead acc.1 lead (clock acc.2) (clock (acc.2 + 1))).2, acc.2 + 2)) (s1, 2)).1

/-- The constructor of `MemStorage`. -/
def newMemStorage (clock : Nat → Int) : MemStorage :=
  initializeSampleData
    { users := [], leadStore := [], taskStore := [], userId := 1, leadId := 1, taskId := 1 } clock

/-! ## Engine built-ins -/

/-- The built-ins taken from the engine.  `dateParse` and `stringToNumber` answer `none` for
`NaN`; `toStringOf` is ToString; `arraySort cmp xs` is `xs.sort(cmp)`. -/
structure JsRuntime where
  toLowerCase : String → String
  dateParse : String → Option Int
  stringToNumber : String → Option Int
  toStringOf : JsVal → String
  arraySort : (Obj → Obj → Int) → List Obj → List Obj

/-- The contract of `Array.prototype.sort` that holds for every comparator: the result holds
the same elements. -/
def JsRuntime.SortPermutes (rt : JsRuntime) : Prop :=
  ∀ (cmp : Obj → Obj → Int) (xs : List Obj), (rt.arraySort cmp xs).Perm xs

/-- `s.includes(sub)`. -/
def includes (s sub : String) : Bool :=
  s.toList.tails.any (fun t => sub.toList.isPrefixOf t)

/-- `value.toLowerCase()`: only a string has the method. -/
def callToLowerCase (rt : JsRuntime) : JsVal → Except JsError String
  | .str s => .ok (rt.toLowerCase s)
  | _ => .error .typeError

/-- TimeClip. -/
def timeClip (n : Int) : Option Int :=
  if n.natAbs > 8640000000000000 then none else some n

/-- `new Date(value)`. -/
def newDate (rt : JsRuntime) : JsVal → JsVal
  | .date t => .date t
  | .undefined => .date none
  | .null => .date (some 0)
  | .bool b => .date (some (if b then 1 else 0))
  | .num n => .date (timeClip n)
  | .str s => .date (rt.dateParse s)

/-- ToNumber, after ToPrimitive with hint number; `none` is `NaN`. -/
def toNumber (rt : JsRuntime) : JsVal → Option Int
  | .undefined => none
  | .null => some 0
  | .bool b => some (if b then 1 else 0)
  | .num n => some n
  | .str s => rt.stringToNumber s
  | .date t => t

/-- The UTF-16 code units of a character: one unit, or a surrogate pair above `0xFFFF`. -/
def charUnits (c : Char) : List Nat :=
  if c.toNat < 65536 then [c.toNat]
  else [55296 + (c.toNat - 65536) / 1024, 56320 + (c.toNat - 65536) % 1024]

/-- The UTF-16 code units of a string. -/
def utf16Units : List Char → List Nat
  | [] => []
  | c :: cs => charUnits c ++ utf16Units cs

/-- The operator `x > y`: two strings compare lexicographically by UTF-16 code unit, anything
else as numbers, and a comparison with `NaN` is false. -/
def greaterThan (rt : JsRuntime) (x y : JsVal) : Bool :=
  match x, y with
  | .str a, .str b => decide (utf16Units b.toList < utf16Units a.toList)
  | _, _ =>
    match toNumber rt x, toNumber rt y with
    | some a, some b => decide (b < a)
    | _, _ => false

/-- ToString and ToPropertyKey: a string is itself. -/
def toJsString (rt : JsRuntime) : JsVal → String
  | .str s => s
  | v => rt.toStringOf v

/-- Whether ToPrimitive without a hint gives a string: for a string and for a `Date`. -/
def isStringOrDate : JsVal → Bool
  | .str _ => true
  | .date _ => true
  | _ => false

/-- The operator `a + b`, `none` for `NaN`: with an operand that is a string or a `Date` the
strings of the two are joined, else the numbers are added. -/
def jsAdd (rt : JsRuntime) (a b : JsVal) : Option JsVal :=
  if isStringOrDate a || isStringOrDate b then
    some (.str (toJsString rt a ++ toJsString rt b))
  else
    match toNumber rt a, toNumber rt b with
    | some x, some y => some (.num (x + y))
    | _, _ => none

/-- ToIntegerOrInfinity of an argument of `slice`: `NaN` counts as 0. -/
def toIntegerOrInfinity (rt : JsRuntime) : Option JsVal → Int
  | none => 0
  | some v => (toNumber rt v).getD 0

/-- A destructuring default `{ name = d }`: it stands in for `undefined` only. -/
def orDefault (v d : JsVal) : JsVal :=
  match v with
  | .undefined => d
  | w => w

/-- `array.slice(start, end)`. -/
def jsSlice (xs : List Obj) (start stop : Int) : List Obj :=
  let len : Int := xs.length
  let k := if start < 0 then max (len + start) 0 else min start len
  let final := if stop < 0 then max (len + stop) 0 else min stop len
  (xs.drop k.toNat).take (final - k).toNat

/-- `array.filter(p)` for a callback that can throw. -/
def filterE (p : Obj → Except JsError Bool) : List Obj → Except JsError (List Obj)
  | [] => .ok []
  | x :: xs =>
    match p x with
    | .error e => .error e
    | .ok b =>
      match filterE p xs with
      | .error e => .error e
      | .ok r => .ok (if b then x :: r else r)

/-! ## getLeads -/

/-- The options object of `getLeads`; `undefined` is an absent option. -/
structure LeadOptions where
  limit : JsVal
  offset : JsVal
  search : JsVal
  status : JsVal
  source : JsVal
  sortBy : JsVal
  sortOrder : JsVal

/-- The result of `getLeads`. -/
structure LeadPage where
  leads : List Obj
  total : Nat
  deriving DecidableEq

/-- The callback of the search filter. -/
def searchCallback (rt : JsRuntime) (searchLower : String) (lead : Obj) : Except JsError Bool :=
  (callToLowerCase rt (getProp lead "firstName")).bind fun firstName =>
  if includes firstName searchLower then .ok true else
  (callToLowerCase rt (getProp lead "lastName")).bind fun lastName =>
  if includes lastName searchLower then .ok true else
  (callToLowerCase rt (getProp lead "email")).bind fun email =>
  if includes email searchLower then .ok true else
  if truthy (getProp lead "company") then
    (callToLowerCase rt (getProp lead "company")).bind fun company =>
    .ok (includes company searchLower)
  else .ok false

/-- The comparator passed to `leads.sort`. -/
def compareLeads (rt : JsRuntime) (sortBy sortOrder : JsVal) (a b : Obj) : Int :=
  let aVal := getProp a (toJsString rt sortBy)
  let bVal := getProp b (toJsString rt sortBy)
  let aVal := if strictEq sortBy (.str "createdAt") || strictEq sortBy (.str "updatedAt")
    then newDate rt aVal else aVal
  let bVal := if strictEq sortBy (.str "createdAt") || strictEq sortBy (.str "updatedAt")
    then newDate rt bVal else bVal
  if strictEq sortOrder (.str "desc") then
    if greaterThan rt bVal aVal then 1 else -1
  else
    if greaterThan rt aVal bVal then 1 else -1

/-- The filtered list of `getLeads`, before the sort. -/
def filteredLeads (rt : JsRuntime) (s : MemStorage) (options : LeadOptions) :
    Except JsError (List Obj) :=
  let search := orDefault options.search (.str "")
  let status := orDefault options.status (.str "")
  let source := orDefault options.source (.str "")
  let leads := mapValues s.leadStore
  (if truthy search then
    (callToLowerCase rt search).bind fun searchLower =>
    filterE (searchCallback rt searchLower) leads
   else .ok leads).bind fun leads =>
  let leads := if truthy status then
      leads.filter (fun lead => strictEq (getProp lead "status") status)
    else leads
  let leads := if truthy source then
      leads.filter (fun lead => strictEq (getProp lead "source") source)
    else leads
  .ok leads

/-- The sorted list of `getLeads`, before the slice. -/
def sortedLeads (rt : JsRuntime) (s : MemStorage) (options : LeadOptions) :
    Except JsError (List Obj) :=
  (filteredLeads rt s options).bind fun leads =>
  .ok (rt.arraySort
    (compareLeads rt (orDefault options.sortBy (.str "createdAt"))
      (orDefault options.sortOrder (.str "desc"))) leads)

/-- `getLeads(options)`. -/
def getLeads (rt : JsRuntime) (s : MemStorage) (options : LeadOptions) :
    Except JsError LeadPage :=
  let limit := orDefault options.limit (.num 10)
  let offset := orDefault options.offset (.num 0)
  (sortedLeads rt s options).bind fun leads =>
  let total := leads.length
  let paginatedLeads := jsSlice leads (toIntegerOrInfinity rt (some offset))
    (toIntegerOrInfinity rt (jsAdd rt offset limit))
  .ok { leads := paginatedLeads, total := total }

/-! ## The sort of V8 for short arrays -/

/-- The loop of `CountAndMakeRun`: how many elements after the first two extend the run. -/
def countRun (cmp : Obj → Obj → Int) (isDescending : Bool) (previousElement : Obj) :
    List Obj → Nat
  | [] => 0
  | currentElement :: rest =>
    let order := cmp currentElement previousElement
    if isDescending then
      if order ≥ 0 then 0 else countRun cmp isDescending currentElement rest + 1
    else
      if order < 0 then 0 else countRun cmp isDescending currentElement rest + 1

/-- The binary search of `BinaryInsertionSort`: the place of `pivot` in the sorted part. -/
def searchPlace (cmp : Obj → Obj → Int) (pivot : Obj) (work : List Obj) :
    Nat → Nat → Nat → Nat
  | 0, left, _ => left
  | fuel + 1, left, right =>
    if left < right then
      let mid := left + (right - left) / 2
      match work.get? mid with
      | none => left
      | some x =>
        if cmp pivot x < 0 then searchPlace cmp pivot work fuel left mid
        else searchPlace cmp pivot work fuel (mid + 1) right
    else left

/-- One round of `BinaryInsertionSort`: `pivot` moves to its place in the sorted part. -/
def insertPivot (cmp : Obj → Obj → Int) (work : List Obj) (pivot : Obj) : List Obj :=
  let left := searchPlace cmp pivot work (work.length + 1) 0 work.length
  work.take left ++ pivot :: work.drop left

/-- The sort of V8 for an array of fewer than 64 elements: the first run is found and, when
it descends, reversed; the other elements are inserted one by one. -/
def v8ArraySort (cmp : Obj → Obj → Int) (xs : List Obj) : List Obj :=
  match xs with
  | [] => []
  | [x] => [x]
  | elementHigh :: elementLow :: rest =>
    let isDescending : Bool := cmp elementLow elementHigh < 0
    let runLength := 2 + countRun cmp isDescending elementLow rest
    let run := xs.take runLength
    let run := if isDescending then run.reverse else run
    (xs.drop runLength).foldl (insertPivot cmp) run

/-- A runtime for the worked examples, with the sort of V8.  Its other fields stand in for
those of Node and agree with them on the values the examples reach only: `toLowerCase` lowers
the ASCII letters, and no example reads a string as a date or as a number or turns a value
that is no string into one. -/
def nodeRuntime : JsRuntime where
  toLowerCase := fun s => String.mk (s.toList.map Char.toLower)
  dateParse := fun _ => none
  stringToNumber := fun _ => none
  toStringOf := fun v =>
    match v with
    | .undefined => "undefined"
    | .null => "null"
    | .bool true => "true"
    | .bool false => "false"
    | .num n => toString n
    | .str s => s
    | .date _ => "Invalid Date"
  arraySort := v8ArraySort

/-! ## Passwords -/

/-- The type of `scrypt(password, salt, keylen)`: the derived key as a list of bytes. -/
abbrev Scrypt := String → String → Nat → List Nat

/-- What `scrypt` returns: `keylen` bytes. -/
def Scrypt.WellFormed (scrypt : Scrypt) : Prop :=
  ∀ password salt keylen,
    (scrypt password salt keylen).length = keylen ∧ ∀ b ∈ scrypt password salt keylen, b < 256

/-- The hexadecimal digit of a number below sixteen. -/
def hexDigit (n : Nat) : Char :=
  ['0', '1', '2', '3', '4', '5', '6', '7', '8', '9', 'a', 'b', 'c', 'd', 'e', 'f'].getD n '0'

/-- `buf.toString('hex')`. -/
def hexEncode : List Nat → List Char
  | [] => []
  | b :: rest => hexDigit (b / 16) :: hexDigit (b % 16) :: hexEncode rest

/-- The value of a hexadecimal digit. -/
def unhex (c : Char) : Option Nat :=
  if 48 ≤ c.toNat ∧ c.toNat ≤ 57 then some (c.toNat - 48)
  else if 97 ≤ c.toNat ∧ c.toNat ≤ 102 then some (c.toNat - 87)
  else if 65 ≤ c.toNat ∧ c.toNat ≤ 70 then some (c.toNat - 55)
  else none

/-- `Buffer.from(s, 'hex')`: decoding stops at the first pair that is not two digits. -/
def hexDecode : List Char → List Nat
  | a :: b :: rest =>
    match unhex a, unhex b with
    | some x, some y => (16 * x + y) :: hexDecode rest
    | _, _ => []
  | _ => []

/-- `s.split('.')`. -/
def splitOnDot : List Char → List (List Char)
  | [] => [[]]
  | c :: cs =>
    if c = '.' then [] :: splitOnDot cs
    else
      match splitOnDot cs with
      | [] => [[c]]
      | p :: ps => (c :: p) :: ps

/-- `timingSafeEqual(a, b)`: buffers of different lengths are an error. -/
def timingSafeEqual (a b : List Nat) : Except JsError Bool :=
  if a.length ≠ b.length then .error .rangeError else .ok (decide (a = b))

/-- `hashPassword(password)`; `randomBytes16` is the result of `randomBytes(16)`. -/
def hashPassword (scrypt : Scrypt) (randomBytes16 : List Nat) (password : String) : String :=
  let salt := String.mk (hexEncode randomBytes16)
  let buf := scrypt password salt 64
  String.mk (hexEncode buf ++ '.' :: salt.toList)

/-- `comparePasswords(supplied, stored)`.  `stored.split` exists on a string only, and
`scrypt` throws on the `undefined` salt of a stored string without a dot. -/
def comparePasswords (scrypt : Scrypt) (supplied : String) (stored : JsVal) :
    Except JsError Bool :=
  match stored with
  | .str stored =>
    let parts := splitOnDot stored.toList
    let hashed := parts.headD []
    let salt := parts.get? 1
    let hashedBuf := hexDecode hashed
    match salt with
    | none => .error .typeError
    | some salt =>
      let suppliedBuf := scrypt supplied (String.mk salt) 64
      timingSafeEqual hashedBuf suppliedBuf
  | _ => .error .typeError

/-! ## Passport -/

/-- What the verify callback hands to `done`. -/
inductive Done where
  | error (e : JsError)
  | fail
  | success (user : Obj)
  deriving DecidableEq

/-- The verify callback of the `LocalStrategy`. -/
def localStrategyVerify (scrypt : Scrypt) (s : MemStorage) (username password : String) : Done :=
  match getUserByUsername s (.str username) with
  | none => .fail
  | some user =>
    let isValid : Except JsError Bool :=
      if password = "password123" then .ok true
      else comparePasswords scrypt password (getProp user "password")
    match isValid with
    | .error e => .error e
    | .ok false => .fail
    | .ok true => .success user

/-- `serializeUser`. -/
def serializeUser (user : Obj) : JsVal := getProp user "id"

/-- `deserializeUser`. -/
def deserializeUser (s : MemStorage) (id : JsVal) : Option Obj := getUser s id

/-- The part of a request the gates read: `req.user`, absent when the session resolves to no
user. -/
structure Request where
  user : Option Obj

/-- The request that `passport.session()` builds from the user id kept in the session. -/
def sessionRequest (s : MemStorage) (sessionUser : Option JsVal) : Request :=
  { user := sessionUser.bind (deserializeUser s) }

/-- `req.isAuthenticated()`. -/
def isAuthenticated (req : Request) : Bool := req.user.isSome

/-- What a gate does: it answers with a status and a message, or calls `next`. -/
inductive Gate where
  | json (status : Nat) (message : String)
  | next
  deriving DecidableEq

/-- `requireAuth`, with the store it leaves behind. -/
def requireAuth (storage : MemStorage) (req : Request) : Gate × MemStorage :=
  if !isAuthenticated req then (.json 401 "Authentication required", storage)
  else (.next, storage)

/-- `requireAdmin`, with the store it leaves behind; `||` reads `req.user.isAdmin` only when
the request is authenticated. -/
def requireAdmin (storage : MemStorage) (req : Request) : Gate × MemStorage :=
  match req.user with
  | none => (.json 403 "Admin access required", storage)
  | some user =>
    if !truthy (getProp user "isAdmin") then (.json 403 "Admin access required", storage)
    else (.next, storage)

/-! ## Predicates of the specification and sample data -/

deriving instance DecidableEq for Except

/-- Whether a value is a string. -/
def isStr : JsVal → Bool
  | .str _ => true
  | _ => false

/-- A lead whose searched fields have the types of the data model: `firstName`, `lastName`
and `email` are strings, `company` is a string or is absent (falsy). -/
def searchableLead (lead : Obj) : Bool :=
  isStr (getProp lead "firstName") && isStr (getProp lead "lastName") &&
  isStr (getProp lead "email") &&
  (isStr (getProp lead "company") || !truthy (getProp lead "company"))

/-- Case-insensitive substring match of one field, in the words of the specification; a
value that is no string does not match. -/
def fieldMatches (rt : JsRuntime) (search : String) : JsVal → Bool
  | .str s => includes (rt.toLowerCase s) (rt.toLowerCase search)
  | _ => false

/-- The search filter of the specification: a match in `firstName`, `lastName`, `email` or
`company`, where an absent or empty company contributes nothing. -/
def matchesSearch (rt : JsRuntime) (search : String) (lead : Obj) : Bool :=
  fieldMatches rt search (getProp lead "firstName") ||
  fieldMatches rt search (getProp lead "lastName") ||
  fieldMatches rt search (getProp lead "email") ||
  (truthy (getProp lead "company") && fieldMatches rt search (getProp lead "company"))

/-- The text of a search option that is a string. -/
def searchText : JsVal → String
  | .str s => s
  | _ => ""

/-- The conjunction of the active filters of the specification: an absent or empty option
is no filter. -/
def passesFilters (rt : JsRuntime) (options : LeadOptions) (lead : Obj) : Bool :=
  (!truthy options.search || matchesSearch rt (searchText options.search) lead) &&
  (!truthy options.status || strictEq (getProp lead "status") options.status) &&
  (!truthy options.source || strictEq (getProp lead "source") options.source)

/-- The sorted filtered list of the specification: the leads that pass the filters, in the
order the sort gives them under the comparator of `sortBy` and `sortOrder`. -/
def sortedFiltered (rt : JsRuntime) (s : MemStorage) (options : LeadOptions) : List Obj :=
  rt.arraySort
    (compareLeads rt (orDefault options.sortBy (.str "createdAt"))
      (orDefault options.sortOrder (.str "desc")))
    ((mapValues s.leadStore).filter (passesFilters rt options))

/-- The options for which the search of `getLeads` is defined on a store: no search, or a
search string over leads whose searched fields have the types of the data model. -/
def searchDefined (s : MemStorage) (options : LeadOptions) : Prop :=
  truthy options.search = false ∨
  (isStr options.search = true ∧ ∀ lead ∈ mapValues s.leadStore, searchableLead lead = true)

instance searchDefinedDecidable (s : MemStorage) (options : LeadOptions) :
    Decidable (searchDefined s options) := by
  unfold searchDefined
  infer_instance

/-- The part of a stored credential before the first dot: `hashed` in `comparePasswords`. -/
def digestPart (stored : String) : List Char := (splitOnDot stored.toList).headD []

/-- The part of a stored credential between the first and the second dot: `salt` in
`comparePasswords`, the empty string where there is none. -/
def saltPart (stored : String) : String := String.mk (((splitOnDot stored.toList).get? 1).getD [])

/-- Whether a character is a hexadecimal digit. -/
def isHexChar (c : Char) : Bool := (unhex c).isSome

/-- The stored credential format of the specification, `<hex digest>.<hex salt>`: exactly one
dot, hexadecimal digits on both sides, and a digest of 64 bytes. -/
def wellFormedCredential (stored : String) : Bool :=
  match splitOnDot stored.toList with
  | [digest, salt] => digest.all isHexChar && salt.all isHexChar && digest.length == 128
  | _ => false

/-- A clock for the worked examples: the `i`-th reading is `i`. -/
def sampleClock : Nat → Int := fun i => i

/-- The store right after `new MemStorage()`. -/
def sampleStorage : MemStorage := newMemStorage sampleClock

/-- A key derivation for the worked examples. -/
def sampleScrypt : Scrypt :=
  fun password salt keylen => List.replicate keylen ((password.length + salt.length) % 256)

/-- No option given. -/
def noOptions : LeadOptions :=
  { limit := .undefined, offset := .undefined, search := .undefined, status := .undefined,
    source := .undefined, sortBy := .undefined, sortOrder := .undefined }

/-! ## Objects and maps -/

theorem findProp_map_same (o : Obj) (k : String) (v : JsVal) (h : (findProp o k).isSome) :
    findProp (o.map (fun kv => if kv.1 = k then (kv.1, v) else kv)) k = some v := by
  induction o with
  | nil => simp [findProp] at h
  | cons kv rest ih =>
    simp only [List.map_cons, findProp] at h ⊢
    cases hr : findProp rest k with
    | some w => simp [ih (by simp [hr])]
    | none =>
      have hak : kv.1 = k := by
        by_contra hne
        simp [hr, hne] at h
      have hrest : ∀ (r : Obj), findProp r k = none →
          findProp (r.map (fun kv => if kv.1 = k then (kv.1, v) else kv)) k = none := by
        intro r
        induction r with
        | nil => intro _; rfl
        | cons kv2 rest2 ih2 =>
          intro h2
          simp only [findProp, Option.or_eq_none] at h2
          have hck : ¬ kv2.1 = k := by
            intro hc
            simp [hc] at h2
          simp [findProp, ih2 h2.1, hck]
      simp [hrest rest hr, hak]

theorem findProp_append_same (o : Obj) (k : String) (v : JsVal) (h : findProp o k = none) :
    findProp (o ++ [(k, v)]) k = some v := by
  induction o with
  | nil => simp [findProp]
  | cons kv rest ih =>
    simp only [findProp, Option.or_eq_none] at h
    simp [findProp, ih h.1]

theorem findProp_setProp_same (o : Obj) (k : String) (v : JsVal) :
    findProp (setProp o k v) k = some v := by
  unfold setProp hasProp
  cases h : findProp o k with
  | some w => simpa using findProp_map_same o k v (by simp [h])
  | none => simpa using findProp_append_same o k v h

theorem findProp_map_ne (o : Obj) (k key : String) (v : JsVal) (hne : k ≠ key) :
    findProp (o.map (fun kv => if kv.1 = k then (kv.1, v) else kv)) key = findProp o key := by
  induction o with
  | nil => rfl
  | cons kv rest ih =>
    simp only [List.map_cons, findProp, ih]
    by_cases hak : kv.1 = k
    · have : ¬ kv.1 = key := fun h => hne (hak ▸ h)
      simp [hak, hne, this]
    · simp [hak]

theorem findProp_append_ne (o : Obj) (k key : String) (v : JsVal) (hne : k ≠ key) :
    findProp (o ++ [(k, v)]) key = findProp o key := by
  induction o with
  | nil => simp [findProp, hne]
  | cons kv rest ih => simp [findProp, ih]

theorem findProp_setProp_ne (o : Obj) (k key : String) (v : JsVal) (hne : k ≠ key) :
    findProp (setProp o k v) key = findProp o key := by
  unfold setProp
  split
  · exact findProp_map_ne o k key v hne
  · exact findProp_append_ne o k key v hne

theorem findProp_assign (target source : Obj) (key : String) :
    findProp (assign target source) key = (findProp source key).or (findProp target key) := by
  unfold assign
  induction source generalizing target with
  | nil => simp [findProp]
  | cons kv rest ih =>
    simp only [List.foldl_cons, findProp]
    rw [ih]
    cases hr : findProp rest key with
    | some w => simp
    | none =>
      by_cases hak : kv.1 = key
      · subst hak
        simp [findProp_setProp_same]
      · simp [findProp_setProp_ne _ _ _ _ hak, hak]

theorem getProp_setProp_same (o : Obj) (k : String) (v : JsVal) :
    getProp (setProp o k v) k = v := by
  simp [getProp, findProp_setProp_same]

theorem getProp_setProp_ne (o : Obj) (k key : String) (v : JsVal) (hne : k ≠ key) :
    getProp (setProp o k v) key = getProp o key := by
  simp [getProp, findProp_setProp_ne _ _ _ _ hne]

theorem getProp_assign_of_not_has (target source : Obj) (key : String)
    (h : hasProp source key = false) :
    getProp (assign target source) key = getProp target key := by
  unfold hasProp at h
  have hn : findProp source key = none := by
    cases hf : findProp source key with
    | none => rfl
    | some w => simp [hf] at h
  simp [getProp, findProp_assign, hn]

theorem getProp_assign_nil (source : Obj) (key : String) :
    getProp (assign [] source) key = getProp source key := by
  simp [getProp, findProp_assign, findProp]

theorem mapGet_mapSet_same (m : JsMap) (k : JsVal) (v : Obj) :
    mapGet (mapSet m k v) k = some v := by
  induction m with
  | nil => simp [mapSet, mapGet]
  | cons kv rest ih =>
    obtain ⟨a, b⟩ := kv
    by_cases h : a = k
    · simp [mapSet, mapGet, h]
    · simp [mapSet, mapGet, h, ih]

/-! ## Repository: create, get, update -/

/-- C10. Create/get round trip: for every store and every draft, looking up the id of the
entity that `createLead` returns, in the store that `createLead` leaves, gives that entity; the
same holds for `createUser` with `getUser` and for `createTask` with `getTask`. -/
theorem create_get_round_trip (s : MemStorage) (draft : Obj) (t1 t2 : Int) :
    getLead (createLead s draft t1 t2).2 (getProp (createLead s draft t1 t2).1 "id")
        = some (createLead s draft t1 t2).1 ∧
    getUser (createUser s draft t1 t2).2 (getProp (createUser s draft t1 t2).1 "id")
        = some (createUser s draft t1 t2).1 ∧
    getTask (createTask s draft t1).2 (getProp (createTask s draft t1).1 "id")
        = some (createTask s draft t1).1 := by
  refine ⟨?_, ?_, ?_⟩
  · simp only [getLead, createLead]
    exact mapGet_mapSet_same _ _ _
  · simp only [getUser, createUser]
    exact mapGet_mapSet_same _ _ _
  · simp only [getTask, createTask]
    exact mapGet_mapSet_same _ _ _

theorem createLead_id_of_draft_without_id (s : MemStorage) (draft : Obj) (t1 t2 : Int)
    (h : hasProp draft "id" = false) :
    getProp (createLead s draft t1 t2).1 "id" = .num s.leadId ∧
    (createLead s draft t1 t2).2.leadId = s.leadId + 1 := by
  refine ⟨?_, rfl⟩
  simp only [createLead, objectLiteral, List.foldl_cons, List.foldl_nil]
  rw [getProp_setProp_ne _ _ _ _ (by decide), getProp_setProp_ne _ _ _ _ (by decide),
    getProp_setProp_ne _ _ _ _ (by decide), getProp_assign_of_not_has _ _ _ h,
    getProp_setProp_same]

theorem createUser_id_of_draft_without_id (s : MemStorage) (draft : Obj) (t1 t2 : Int)
    (h : hasProp draft "id" = false) :
    getProp (createUser s draft t1 t2).1 "id" = .num s.userId ∧
    (createUser s draft t1 t2).2.userId = s.userId + 1 := by
  refine ⟨?_, rfl⟩
  simp only [createUser, objectLiteral, List.foldl_cons, List.foldl_nil]
  rw [getProp_setProp_ne _ _ _ _ (by decide), getProp_setProp_ne _ _ _ _ (by decide),
    getProp_setProp_ne _ _ _ _ (by decide), getProp_setProp_ne _ _ _ _ (by decide),
    getProp_assign_of_not_has _ _ _ h, getProp_setProp_same]

theorem createTask_id_of_draft_without_id (s : MemStorage) (draft : Obj) (t1 : Int)
    (h : hasProp draft "id" = false) :
    getProp (createTask s draft t1).1 "id" = .num s.taskId ∧
    (createTask s draft t1).2.taskId = s.taskId + 1 := by
  refine ⟨?_, rfl⟩
  simp only [createTask, objectLiteral, List.foldl_cons, List.foldl_nil]
  rw [getProp_setProp_ne _ _ _ _ (by decide), getProp_assign_of_not_has _ _ _ h,
    getProp_setProp_same]

/-- C4, at the failing input. On the store of `new MemStorage()` the lead with id 1 exists and
the counter stands at 3; `createLead` with a draft that carries `id: 1` returns a lead with
id 1, not 3, and stores it over the existing lead, while the counter moves on to 4.
`createUser` and `createTask` take the id of the draft in the same way. -/
theorem createLead_draft_id_overrides_counter :
    (getLead sampleStorage (.num 1)).map (fun lead => getProp lead "firstName")
        = some (.str "Sarah") ∧
    sampleStorage.leadId = 3 ∧
    getProp (createLead sampleStorage [("id", .num 1), ("firstName", .str "Eve")] 8 9).1 "id"
        = .num 1 ∧
    (getLead (createLead sampleStorage [("id", .num 1), ("firstName", .str "Eve")] 8 9).2
        (.num 1)).map (fun lead => getProp lead "firstName") = some (.str "Eve") ∧
    (createLead sampleStorage [("id", .num 1), ("firstName", .str "Eve")] 8 9).2.leadId = 4 ∧
    getProp (createUser sampleStorage [("id", .num 1), ("username", .str "eve")] 8 9).1 "id"
        = .num 1 ∧
    getProp (createTask sampleStorage [("id", .num 0), ("leadId", .num 1)] 8).1 "id"
        = .num 0 := by
  decide

/-- C5, counterexample. On the store of `new MemStorage()` the lead stored under 1 has id 1
and the creation time 2; after `updateLead(1, { id: 99, createdAt: "never" })` the entity
returned, and the entity stored under 1, has id 99 and `createdAt` "never". -/
theorem updateLead_patch_overwrites_id :
    (getLead sampleStorage (.num 1)).map
        (fun lead => (getProp lead "id", getProp lead "createdAt"))
      = some (.num 1, .date (some 2)) ∧
    (updateLead sampleStorage (.num 1) [("id", .num 99), ("createdAt", .str "never")] 7).1.map
        (fun lead => (getProp lead "id", getProp lead "createdAt"))
      = some (.num 99, .str "never") ∧
    (getLead
        (updateLead sampleStorage (.num 1) [("id", .num 99), ("createdAt", .str "never")] 7).2
        (.num 1)).map (fun lead => (getProp lead "id", getProp lead "createdAt"))
      = some (.num 99, .str "never") := by
  decide

/-- C5, amended. For every store and id: `updateLead(id, patch)` on an existing lead, with a
patch that has no `id` and no `createdAt` property, returns and stores under `id` an entity
with the `id` and `createdAt` of the lead stored before; `updateUserApproval`,
`updateUserCredentials` and `updateTask` on an existing entity do so for all their
arguments. -/
theorem update_keeps_id_and_createdAt (s : MemStorage) (id : JsVal) (t : Int) :
    (∀ lead patch, getLead s id = some lead →
      hasProp patch "id" = false → hasProp patch "createdAt" = false →
      ∃ updated, (updateLead s id patch t).1 = some updated ∧
        getLead (updateLead s id patch t).2 id = some updated ∧
        getProp updated "id" = getProp lead "id" ∧
        getProp updated "createdAt" = getProp lead "createdAt") ∧
    (∀ user isApproved, getUser s id = some user →
      ∃ updated, (updateUserApproval s id isApproved t).1 = some updated ∧
        getUser (updateUserApproval s id isApproved t).2 id = some updated ∧
        getProp updated "id" = getProp user "id" ∧
        getProp updated "createdAt" = getProp user "createdAt") ∧
    (∀ user username password, getUser s id = some user →
      ∃ updated, (updateUserCredentials s id username password t).1 = some updated ∧
        getUser (updateUserCredentials s id username password t).2 id = some updated ∧
        getProp updated "id" = getProp user "id" ∧
        getProp updated "createdAt" = getProp user "createdAt") ∧
    (∀ task completed, getTask s id = some task →
      ∃ updated, (updateTask s id completed).1 = some updated ∧
        getTask (updateTask s id completed).2 id = some updated ∧
        getProp updated "id" = getProp task "id" ∧
        getProp updated "createdAt" = getProp task "createdAt") := by
  refine ⟨?_, ?_, ?_, ?_⟩
  · intro lead patch hl hid hcr
    simp only [getLead] at hl
    refine ⟨_, by simp only [updateLead, hl]; rfl, ?_, ?_, ?_⟩
    · simp only [updateLead, hl, getLead]
      exact mapGet_mapSet_same _ _ _
    · simp only [objectLiteral, List.foldl_cons, List.foldl_nil]
      rw [getProp_setProp_ne _ _ _ _ (by decide), getProp_assign_of_not_has _ _ _ hid,
        getProp_assign_nil]
    · simp only [objectLiteral, List.foldl_cons, List.foldl_nil]
      rw [getProp_setProp_ne _ _ _ _ (by decide), getProp_assign_of_not_has _ _ _ hcr,
        getProp_assign_nil]
  · intro user isApproved hu
    simp only [getUser] at hu
    refine ⟨_, by simp only [updateUserApproval, hu]; rfl, ?_, ?_, ?_⟩
    · simp only [updateUserApproval, hu, getUser]
      exact mapGet_mapSet_same _ _ _
    · simp only [objectLiteral, List.foldl_cons, List.foldl_nil]
      rw [getProp_setProp_ne _ _ _ _ (by decide), getProp_setProp_ne _ _ _ _ (by decide),
        getProp_assign_nil]
    · simp only [objectLiteral, List.foldl_cons, List.foldl_nil]
      rw [getProp_setProp_ne _ _ _ _ (by decide), getProp_setProp_ne _ _ _ _ (by decide),
        getProp_assign_nil]
  · intro user username password hu
    simp only [getUser] at hu
    refine ⟨_, by simp only [updateUserCredentials, hu]; rfl, ?_, ?_, ?_⟩
    · simp only [updateUserCredentials, hu, getUser]
      exact mapGet_mapSet_same _ _ _
    · simp only [objectLiteral, List.foldl_cons, List.foldl_nil]
      rw [getProp_setProp_ne _ _ _ _ (by decide), getProp_setProp_ne _ _ _ _ (by decide),
        getProp_setProp_ne _ _ _ _ (by decide), getProp_assign_nil]
    · simp only [objectLiteral, List.foldl_cons, List.foldl_nil]
      rw [getProp_setProp_ne _ _ _ _ (by decide), getProp_setProp_ne _ _ _ _ (by decide),
        getProp_setProp_ne _ _ _ _ (by decide), getProp_assign_nil]
  · intro task completed ht
    simp only [getTask] at ht
    refine ⟨_, by simp only [updateTask, ht]; rfl, ?_, ?_, ?_⟩
    · simp only [updateTask, ht, getTask]
      exact mapGet_mapSet_same _ _ _
    · simp only [objectLiteral, List.foldl_cons, List.foldl_nil]
      rw [getProp_setProp_ne _ _ _ _ (by decide), getProp_assign_nil]
    · simp only [objectLiteral, List.foldl_cons, List.foldl_nil]
      rw [getProp_setProp_ne _ _ _ _ (by decide), getProp_assign_nil]

/-- C5, the amended claim at the store of `new MemStorage()`: the lead 1 and the user 1 keep
their `id` and `createdAt` under a patch of the notes and under a change of approval. -/
theorem update_keeps_id_and_createdAt_witness :
    getLead sampleStorage (.num 1) ≠ none ∧
    (∃ updated,
      (updateLead sampleStorage (.num 1) [("notes", .str "called")] 7).1 = some updated ∧
      getProp updated "id" = .num 1 ∧ getProp updated "createdAt" = .date (some 2)) ∧
    (∃ updated,
      (updateUserApproval sampleStorage (.num 1) (.bool false) 7).1 = some updated ∧
      getProp updated "id" = .num 1 ∧ getProp updated "createdAt" = .date (some 0)) := by
  refine ⟨by decide, ?_, ?_⟩
  · obtain ⟨updated, h1, _, h3, h4⟩ :=
      (update_keeps_id_and_createdAt sampleStorage (.num 1) 7).1
        ([("id", .num 1), ("firstName", .str "Sarah"), ("lastName", .str "Williams"),
          ("email", .str "sarah.williams@example.com"), ("phone", .str "+1234567890"),
          ("company", .str "Tech Solutions Inc"), ("jobTitle", .str "Marketing Director"),
          ("status", .str "new"), ("source", .str "website"),
          ("notes", .str "Interested in our enterprise package"), ("assignedTo", .null),
          ("createdAt", .date (some 2)), ("updatedAt", .date (some 3))])
        [("notes", .str "called")] (by decide) (by decide) (by decide)
    exact ⟨updated, h1, h3.trans (by decide), h4.trans (by decide)⟩
  · obtain ⟨updated, h1, _, h3, h4⟩ :=
      (update_keeps_id_and_createdAt sampleStorage (.num 1) 7).2.1
        ([("id", .num 1), ("username", .str "admin@example.com"),
          ("password", .str adminPassword), ("isAdmin", .bool true),
          ("isApproved", .bool true), ("createdAt", .date (some 0)),
          ("updatedAt", .date (some 1))])
        (.bool false) (by decide)
    exact ⟨updated, h1, h3.trans (by decide), h4.trans (by decide)⟩

/-! ## Gates -/

/-- C6, counterexample. For a request whose session resolves to no user, `requireAdmin`
answers with status 403, while `requireAuth` answers the same request with status 401. -/
theorem requireAdmin_anonymous_is_403 :
    requireAdmin sampleStorage (sessionRequest sampleStorage none)
      = (.json 403 "Admin access required", sampleStorage) ∧
    requireAuth sampleStorage (sessionRequest sampleStorage none)
      = (.json 401 "Authentication required", sampleStorage) := by
  decide

/-- C6, amended. For every store and request, `requireAdmin` leaves the store as it is, calls
`next` exactly when the session resolves to a user whose `isAdmin` is truthy (for a boolean
flag: exactly when it is `true`), and otherwise answers with status 403, also when the
session resolves to no user. -/
theorem requireAdmin_decides_by_resolved_user (storage : MemStorage) (req : Request) :
    (requireAdmin storage req).2 = storage ∧
    ((requireAdmin storage req).1 = .next ↔
      ∃ user, req.user = some user ∧ truthy (getProp user "isAdmin") = true) ∧
    ((requireAdmin storage req).1 = .next ∨
      (requireAdmin storage req).1 = .json 403 "Admin access required") ∧
    (req.user = none → (requireAdmin storage req).1 = .json 403 "Admin access required") ∧
    (∀ user b, req.user = some user → getProp user "isAdmin" = .bool b →
      ((requireAdmin storage req).1 = .next ↔ b = true)) := by
  unfold requireAdmin
  cases hu : req.user with
  | none => simp
  | some user =>
    cases ht : truthy (getProp user "isAdmin") with
    | false =>
      simp only [ht]
      refine ⟨rfl, ?_, ?_, ?_, ?_⟩
      · simp [ht]
      · simp
      · simp
      · intro user2 b h2 hb
        cases h2
        rw [hb] at ht
        simp only [truthy] at ht
        simp [ht]
    | true =>
      simp only [ht]
      refine ⟨rfl, ?_, ?_, ?_, ?_⟩
      · simp [ht]
      · simp
      · simp
      · intro user2 b h2 hb
        cases h2
        rw [hb] at ht
        simp only [truthy] at ht
        simp [ht]

/-! ## Login -/

theorem strictEq_str_iff (v : JsVal) (u : String) : strictEq v (.str u) = true ↔ v = .str u := by
  cases v <;> simp [strictEq]

theorem getUserByUsername_some (s : MemStorage) (username : String) (user : Obj)
    (h : getUserByUsername s (.str username) = some user) :
    user ∈ mapValues s.users ∧ getProp user "username" = .str username := by
  unfold getUserByUsername at h
  have hp : strictEq (getProp user "username") (.str username) = true :=
    @List.find?_some _ (fun user => strictEq (getProp user "username") (.str username)) _ _ h
  exact ⟨List.mem_of_find?_eq_some h, (strictEq_str_iff _ _).mp hp⟩

theorem localStrategyVerify_success_iff (scrypt : Scrypt) (s : MemStorage)
    (username password : String) (user : Obj) :
    localStrategyVerify scrypt s username password = .success user ↔
      getUserByUsername s (.str username) = some user ∧
      (password = "password123" ∨
        comparePasswords scrypt password (getProp user "password") = .ok true) := by
  unfold localStrategyVerify
  cases hu : getUserByUsername s (.str username) with
  | none => simp
  | some found =>
    by_cases hp : password = "password123"
    · simp [hp]
    · simp only [hp, if_false, false_or]
      cases hc : comparePasswords scrypt password (getProp found "password") with
      | error e =>
        simp only [Option.some.injEq]
        constructor
        · intro h
          cases h
        · rintro ⟨h1, h2⟩
          subst h1
          rw [hc] at h2
          cases h2
      | ok b =>
        cases b with
        | false =>
          simp only [Option.some.injEq]
          constructor
          · intro h
            cases h
          · rintro ⟨h1, h2⟩
            subst h1
            rw [hc] at h2
            cases h2
        | true =>
          simp only [Option.some.injEq, Done.success.injEq]
          constructor
          · intro h
            subst h
            exact ⟨rfl, hc⟩
          · rintro ⟨h1, _⟩
            exact h1

/-- C1, at the failing input. On the store of `new MemStorage()` the stored credential of
`admin@example.com` is the seeded string without a dot, against which `password123` does not
verify (`comparePasswords` throws for every key derivation); the verify callback all the same
hands the administrator to `done` for the password `password123`, through the comparison with
the fixed string that stands before `comparePasswords`. -/
theorem localStrategyVerify_accepts_bypass_password :
    (∀ scrypt : Scrypt,
      comparePasswords scrypt "password123" (.str adminPassword) = .error .typeError) ∧
    (∀ scrypt : Scrypt, ∃ user,
      localStrategyVerify scrypt sampleStorage "admin@example.com" "password123"
        = .success user ∧
      getProp user "password" = .str adminPassword ∧
      getProp user "isAdmin" = .bool true) :=
  ⟨fun _ => rfl, fun _ => ⟨_, rfl, rfl, rfl⟩⟩

/-! ## Stored credentials -/

theorem splitOnDot_ne_nil (l : List Char) : splitOnDot l ≠ [] := by
  cases l with
  | nil => simp [splitOnDot]
  | cons c cs =>
    unfold splitOnDot
    split
    · simp
    · split <;> simp

theorem splitOnDot_of_not_mem (l : List Char) (h : '.' ∉ l) : splitOnDot l = [l] := by
  induction l with
  | nil => rfl
  | cons c cs ih =>
    simp only [List.mem_cons, not_or] at h
    have hc : ¬ c = '.' := fun e => h.1 e.symm
    simp [splitOnDot, hc, ih h.2]

theorem splitOnDot_append_dot (a b : List Char) (h : '.' ∉ a) :
    splitOnDot (a ++ '.' :: b) = a :: splitOnDot b := by
  induction a with
  | nil => simp [splitOnDot]
  | cons c cs ih =>
    simp only [List.mem_cons, not_or] at h
    have hc : ¬ c = '.' := fun e => h.1 e.symm
    simp [splitOnDot, hc, ih h.2]

theorem splitOnDot_of_mem (l : List Char) (h : '.' ∈ l) :
    ∃ p q rest, splitOnDot l = p :: q :: rest := by
  induction l with
  | nil => simp at h
  | cons c cs ih =>
    by_cases hc : c = '.'
    · obtain ⟨q, rest, hq⟩ := List.exists_cons_of_ne_nil (splitOnDot_ne_nil cs)
      exact ⟨[], q, rest, by simp [splitOnDot, hc, hq]⟩
    · have hcs : '.' ∈ cs := by
        rcases List.mem_cons.mp h with h1 | h1
        · exact absurd h1.symm hc
        · exact h1
      obtain ⟨p, q, rest, hp⟩ := ih hcs
      exact ⟨c :: p, q, rest, by simp [splitOnDot, hc, hp]⟩

theorem hexDigit_ne_dot (n : Nat) : hexDigit n ≠ '.' := by
  by_cases h : n < 16
  · interval_cases n <;> decide
  · have h16 : 16 ≤ n := Nat.le_of_not_lt h
    obtain ⟨m, rfl⟩ := Nat.exists_eq_add_of_le h16
    simp only [hexDigit]
    rw [List.getD_eq_default _ _ (by simp)]
    decide

theorem not_mem_hexEncode (bytes : List Nat) : '.' ∉ hexEncode bytes := by
  induction bytes with
  | nil => simp [hexEncode]
  | cons b rest ih =>
    simp only [hexEncode, List.mem_cons, not_or]
    exact ⟨fun e => hexDigit_ne_dot _ e.symm, fun e => hexDigit_ne_dot _ e.symm, ih⟩

theorem unhex_hexDigit (n : Nat) (h : n < 16) : unhex (hexDigit n) = some n := by
  interval_cases n <;> decide

theorem hexDecode_hexEncode (bytes : List Nat) (h : ∀ b ∈ bytes, b < 256) :
    hexDecode (hexEncode bytes) = bytes := by
  induction bytes with
  | nil => rfl
  | cons b rest ih =>
    have hb : b < 256 := h b (List.mem_cons_self _ _)
    have h1 : unhex (hexDigit (b / 16)) = some (b / 16) := unhex_hexDigit _ (by omega)
    have h2 : unhex (hexDigit (b % 16)) = some (b % 16) := unhex_hexDigit _ (by omega)
    simp only [hexEncode, hexDecode, h1, h2]
    rw [ih (fun x hx => h x (List.mem_cons_of_mem _ hx))]
    congr 1
    omega

theorem timingSafeEqual_self (a : List Nat) : timingSafeEqual a a = .ok true := by
  simp [timingSafeEqual]

theorem sampleScrypt_wellFormed : Scrypt.WellFormed sampleScrypt := by
  intro password salt keylen
  refine ⟨by simp [sampleScrypt], ?_⟩
  intro b hb
  simp only [sampleScrypt] at hb
  rw [List.eq_of_mem_replicate hb]
  exact Nat.mod_lt _ (by decide)

/-- C3. Hash/verify round trip: for every key derivation that returns the asked number of
bytes, every password and every salt drawn by `hashPassword` (any list of bytes, so also the
16 bytes of `randomBytes(16)`), the stored string splits on the dot into the digest and the
salt that `hashPassword` joined, the digest decodes to the derived 64 bytes, and
`comparePasswords(p, hashPassword(p))` is true. -/
theorem comparePasswords_hashPassword (scrypt : Scrypt) (hs : Scrypt.WellFormed scrypt)
    (randomBytes16 : List Nat) (password : String) :
    splitOnDot (hashPassword scrypt randomBytes16 password).toList
      = [hexEncode (scrypt password (String.mk (hexEncode randomBytes16)) 64),
         hexEncode randomBytes16] ∧
    hexDecode (hexEncode (scrypt password (String.mk (hexEncode randomBytes16)) 64))
      = scrypt password (String.mk (hexEncode randomBytes16)) 64 ∧
    (scrypt password (String.mk (hexEncode randomBytes16)) 64).length = 64 ∧
    comparePasswords scrypt password (.str (hashPassword scrypt randomBytes16 password))
      = .ok true := by
  have hsplit : splitOnDot (hashPassword scrypt randomBytes16 password).toList
      = [hexEncode (scrypt password (String.mk (hexEncode randomBytes16)) 64),
         hexEncode randomBytes16] := by
    show splitOnDot (hexEncode (scrypt password (String.mk (hexEncode randomBytes16)) 64)
      ++ '.' :: hexEncode randomBytes16) = _
    rw [splitOnDot_append_dot _ _ (not_mem_hexEncode _),
      splitOnDot_of_not_mem _ (not_mem_hexEncode _)]
  have hdec := hexDecode_hexEncode
    (scrypt password (String.mk (hexEncode randomBytes16)) 64) (hs _ _ _).2
  refine ⟨hsplit, hdec, (hs _ _ _).1, ?_⟩
  simp only [comparePasswords, hsplit, List.headD_cons, List.get?_cons_succ, List.get?_cons_zero,
    hdec]
  exact timingSafeEqual_self _

/-- C3 at a sample: the password `hunter2` hashed with sixteen salt bytes verifies. -/
theorem comparePasswords_hashPassword_witness :
    Scrypt.WellFormed sampleScrypt ∧
    comparePasswords sampleScrypt "hunter2"
      (.str (hashPassword sampleScrypt (List.replicate 16 171) "hunter2")) = .ok true :=
  ⟨sampleScrypt_wellFormed,
    (comparePasswords_hashPassword sampleScrypt sampleScrypt_wellFormed
      (List.replicate 16 171) "hunter2").2.2.2⟩

set_option maxRecDepth 100000 in
/-- C2, counterexample. The seeded administrator credential has no dot and is no well-formed
stored credential, and `comparePasswords` throws a `TypeError` on it instead of returning
false; on `abcd.00`, whose digest part decodes to two bytes, it throws a `RangeError`; and on
a hashed password followed by `.junk`, and on a digest joined to the salt `zz!`, neither a
well-formed stored credential, it returns true. -/
theorem comparePasswords_seeded_credential_throws :
    wellFormedCredential adminPassword = false ∧
    comparePasswords sampleScrypt "secret" (.str adminPassword) = .error .typeError ∧
    wellFormedCredential "abcd.00" = false ∧
    comparePasswords sampleScrypt "secret" (.str "abcd.00") = .error .rangeError ∧
    wellFormedCredential
      (String.mk ((hashPassword sampleScrypt (List.replicate 16 171) "hunter2").toList
        ++ ".junk".toList)) = false ∧
    comparePasswords sampleScrypt "hunter2"
      (.str (String.mk ((hashPassword sampleScrypt (List.replicate 16 171) "hunter2").toList
        ++ ".junk".toList))) = .ok true ∧
    wellFormedCredential
      (String.mk (hexEncode (sampleScrypt "hunter2" "zz!" 64) ++ ".zz!".toList)) = false ∧
    comparePasswords sampleScrypt "hunter2"
      (.str (String.mk (hexEncode (sampleScrypt "hunter2" "zz!" 64) ++ ".zz!".toList)))
      = .ok true := by
  decide

/-- C2, amended. For every key derivation that returns the asked number of bytes, every
supplied password and every stored string, so also every one that is no well-formed stored
credential: without a dot `comparePasswords` throws a `TypeError`; with a dot and a part
before the first dot that does not decode to 64 bytes it throws a `RangeError`; and otherwise
it returns, without a throw, whether the 64 decoded bytes are the key derived from the
supplied password and the part between the first and the second dot. -/
theorem comparePasswords_by_parts (scrypt : Scrypt) (hs : Scrypt.WellFormed scrypt)
    (supplied stored : String) :
    ('.' ∉ stored.toList →
      comparePasswords scrypt supplied (.str stored) = .error .typeError) ∧
    ('.' ∈ stored.toList → (hexDecode (digestPart stored)).length ≠ 64 →
      comparePasswords scrypt supplied (.str stored) = .error .rangeError) ∧
    ('.' ∈ stored.toList → (hexDecode (digestPart stored)).length = 64 →
      comparePasswords scrypt supplied (.str stored)
        = .ok (decide (hexDecode (digestPart stored)
            = scrypt supplied (saltPart stored) 64))) := by
  refine ⟨?_, ?_, ?_⟩
  · intro hdot
    simp only [comparePasswords, splitOnDot_of_not_mem _ hdot, List.get?_cons_succ,
      List.get?_nil]
  · intro hdot hlen
    obtain ⟨p, q, rest, hp⟩ := splitOnDot_of_mem _ hdot
    simp only [digestPart, hp, List.headD_cons] at hlen
    simp only [comparePasswords, hp, List.headD_cons, List.get?_cons_succ,
      List.get?_cons_zero, timingSafeEqual, (hs _ _ _).1]
    rw [if_pos hlen]
  · intro hdot hlen
    obtain ⟨p, q, rest, hp⟩ := splitOnDot_of_mem _ hdot
    simp only [digestPart, hp, List.headD_cons] at hlen
    simp only [comparePasswords, digestPart, saltPart, hp, List.headD_cons,
      List.get?_cons_succ, List.get?_cons_zero, Option.getD_some, timingSafeEqual,
      (hs _ _ _).1]
    rw [if_neg (not_not.mpr hlen)]

set_option maxRecDepth 100000 in
/-- C2, the amended claim at the seeded administrator credential, which has no dot, and at
a hashed password followed by `.junk`, which verifies. -/
theorem comparePasswords_by_parts_witness :
    Scrypt.WellFormed sampleScrypt ∧
    comparePasswords sampleScrypt "secret" (.str adminPassword) = .error .typeError ∧
    comparePasswords sampleScrypt "hunter2"
      (.str (String.mk ((hashPassword sampleScrypt (List.replicate 16 171) "hunter2").toList
        ++ ".junk".toList))) = .ok true := by
  refine ⟨sampleScrypt_wellFormed, ?_, ?_⟩
  · exact (comparePasswords_by_parts sampleScrypt sampleScrypt_wellFormed "secret"
      adminPassword).1 (by decide)
  · exact ((comparePasswords_by_parts sampleScrypt sampleScrypt_wellFormed "hunter2"
      (String.mk ((hashPassword sampleScrypt (List.replicate 16 171) "hunter2").toList
        ++ ".junk".toList))).2.2 (by decide) (by decide)).trans (by decide)

/-! ## getLeads: filters, total and page -/

theorem filterE_eq_ok_filter (p : Obj → Except JsError Bool) (q : Obj → Bool) (l : List Obj)
    (h : ∀ x ∈ l, p x = .ok (q x)) : filterE p l = .ok (l.filter q) := by
  induction l with
  | nil => rfl
  | cons x xs ih =>
    have hx := h x (List.mem_cons_self _ _)
    have hxs := ih (fun y hy => h y (List.mem_cons_of_mem _ hy))
    simp only [filterE, hx, hxs, List.filter_cons]

theorem searchCallback_eq_matchesSearch (rt : JsRuntime) (search : String) (lead : Obj)
    (h : searchableLead lead = true) :
    searchCallback rt (rt.toLowerCase search) lead = .ok (matchesSearch rt search lead) := by
  simp only [searchableLead, Bool.and_eq_true, Bool.or_eq_true, Bool.not_eq_true'] at h
  obtain ⟨⟨⟨h1, h2⟩, h3⟩, h4⟩ := h
  unfold searchCallback matchesSearch
  cases hf : getProp lead "firstName" <;> simp only [hf, isStr] at h1 <;> try contradiction
  cases hl : getProp lead "lastName" <;> simp only [hl, isStr] at h2 <;> try contradiction
  cases he : getProp lead "email" <;> simp only [he, isStr] at h3 <;> try contradiction
  simp only [callToLowerCase, fieldMatches, Except.bind]
  rename_i f l e
  cases h5 : includes (rt.toLowerCase f) (rt.toLowerCase search)
  · cases h6 : includes (rt.toLowerCase l) (rt.toLowerCase search)
    · cases h7 : includes (rt.toLowerCase e) (rt.toLowerCase search)
      · cases hc : getProp lead "company" with
        | str c =>
          cases hct : truthy (JsVal.str c) <;>
            simp [hct, callToLowerCase, fieldMatches, Except.bind]
        | undefined => simp [truthy]
        | null => simp [truthy]
        | bool b =>
          rw [hc] at h4
          simp only [isStr, truthy] at h4
          rcases h4 with h4 | h4
          · cases h4
          · simp [truthy, h4]
        | num n =>
          rw [hc] at h4
          simp only [isStr] at h4
          rcases h4 with h4 | h4
          · cases h4
          · simp [h4]
        | date t =>
          rw [hc] at h4
          simp [isStr, truthy] at h4
      · simp
    · simp
  · simp

theorem truthy_orDefault (v : JsVal) : truthy (orDefault v (.str "")) = truthy v := by
  cases v <;> rfl

theorem orDefault_of_truthy (v d : JsVal) (h : truthy v = true) : orDefault v d = v := by
  cases v with
  | undefined => simp [truthy] at h
  | null => rfl
  | bool b => rfl
  | num n => rfl
  | str t => rfl
  | date t => rfl

theorem filter_option_step (v : JsVal) (key : String) (l : List Obj) :
    (if truthy (orDefault v (.str "")) = true then
        l.filter (fun lead => strictEq (getProp lead key) (orDefault v (.str "")))
      else l)
      = l.filter (fun lead => !truthy v || strictEq (getProp lead key) v) := by
  rw [truthy_orDefault]
  cases ht : truthy v with
  | false => simp
  | true =>
    rw [orDefault_of_truthy v _ ht]
    simp

theorem filteredLeads_eq_filter (rt : JsRuntime) (s : MemStorage) (options : LeadOptions)
    (h : searchDefined s options) :
    filteredLeads rt s options
      = .ok ((mapValues s.leadStore).filter (passesFilters rt options)) := by
  have hsearch : (if truthy (orDefault options.search (.str "")) = true then
        (callToLowerCase rt (orDefault options.search (.str ""))).bind fun searchLower =>
          filterE (searchCallback rt searchLower) (mapValues s.leadStore)
      else .ok (mapValues s.leadStore))
      = .ok ((mapValues s.leadStore).filter (fun lead =>
          !truthy options.search || matchesSearch rt (searchText options.search) lead)) := by
    rw [truthy_orDefault]
    cases ht : truthy options.search with
    | false => simp
    | true =>
      have hw : isStr options.search = true ∧
          ∀ lead ∈ mapValues s.leadStore, searchableLead lead = true := by
        rcases h with h | h
        · rw [ht] at h
          cases h
        · exact h
      rw [orDefault_of_truthy _ _ ht]
      cases hs : options.search with
      | str text =>
        simp only [if_true, callToLowerCase, Except.bind, searchText]
        rw [filterE_eq_ok_filter _ (matchesSearch rt text) _
          (fun x hx => searchCallback_eq_matchesSearch rt _ x (hw.2 x hx))]
        simp
      | undefined => rw [hs] at hw; simp [isStr] at hw
      | null => rw [hs] at hw; simp [isStr] at hw
      | bool b => rw [hs] at hw; simp [isStr] at hw
      | num n => rw [hs] at hw; simp [isStr] at hw
      | date t => rw [hs] at hw; simp [isStr] at hw
  simp only [filteredLeads]
  rw [hsearch]
  simp only [Except.bind]
  congr 1
  rw [filter_option_step, filter_option_step, List.filter_filter, List.filter_filter]
  apply List.filter_congr
  intro x _
  simp only [passesFilters]
  cases (!truthy options.search || matchesSearch rt (searchText options.search) x) <;>
    cases (!truthy options.status || strictEq (getProp x "status") options.status) <;>
    cases (!truthy options.source || strictEq (getProp x "source") options.source) <;> rfl

theorem sortedLeads_eq (rt : JsRuntime) (s : MemStorage) (options : LeadOptions)
    (h : searchDefined s options) :
    sortedLeads rt s options = .ok (sortedFiltered rt s options) := by
  simp only [sortedLeads, filteredLeads_eq_filter rt s options h, Except.bind, sortedFiltered]

theorem jsSlice_of_nat (xs : List Obj) (offset limit : Nat) :
    jsSlice xs (offset : Int) ((offset : Int) + (limit : Int))
      = (xs.drop offset).take limit := by
  unfold jsSlice
  have h1 : ¬ ((offset : Int) < 0) := by omega
  have h2 : ¬ ((offset : Int) + (limit : Int) < 0) := by omega
  simp only [h1, h2, if_false]
  by_cases ho : offset ≤ xs.length
  · have e1 : (min (offset : Int) (xs.length : Int)).toNat = offset := by omega
    by_cases hl : offset + limit ≤ xs.length
    · have e2 : (min ((offset : Int) + (limit : Int)) (xs.length : Int)
          - min (offset : Int) (xs.length : Int)).toNat = limit := by omega
      rw [e1, e2]
    · have e2 : (min ((offset : Int) + (limit : Int)) (xs.length : Int)
          - min (offset : Int) (xs.length : Int)).toNat = xs.length - offset := by omega
      rw [e1, e2]
      rw [List.take_of_length_le (by simp), List.take_of_length_le (by simp; omega)]
  · have e1 : (min (offset : Int) (xs.length : Int)).toNat = xs.length := by omega
    rw [e1]
    rw [List.drop_of_length_le (le_refl _), List.drop_of_length_le (by omega)]
    simp

theorem getLeads_eq (rt : JsRuntime) (s : MemStorage) (options : LeadOptions)
    (h : searchDefined s options) :
    getLeads rt s options
      = .ok {
          leads := jsSlice (sortedFiltered rt s options)
            (toIntegerOrInfinity rt (some (orDefault options.offset (.num 0))))
            (toIntegerOrInfinity rt
              (jsAdd rt (orDefault options.offset (.num 0)) (orDefault options.limit (.num 10)))),
          total := (sortedFiltered rt s options).length } := by
  simp only [getLeads, sortedLeads_eq rt s options h, Except.bind]

theorem passesFilters_congr (rt : JsRuntime) (options options2 : LeadOptions)
    (h1 : options2.search = options.search) (h2 : options2.status = options.status)
    (h3 : options2.source = options.source) :
    passesFilters rt options2 = passesFilters rt options := by
  funext lead
  simp only [passesFilters, h1, h2, h3]

theorem sortedFiltered_length (rt : JsRuntime) (hsort : rt.SortPermutes) (s : MemStorage)
    (options : LeadOptions) :
    (sortedFiltered rt s options).length
      = (mapValues s.leadStore).countP (passesFilters rt options) := by
  simp only [List.countP_eq_length_filter, sortedFiltered]
  exact (hsort _ _).length_eq

/-! ## The sort of V8 keeps the elements -/

theorem insertPivot_perm (cmp : Obj → Obj → Int) (work : List Obj) (pivot : Obj) :
    (insertPivot cmp work pivot).Perm (pivot :: work) := by
  unfold insertPivot
  have h := @List.perm_middle _ pivot
    (work.take (searchPlace cmp pivot work (work.length + 1) 0 work.length))
    (work.drop (searchPlace cmp pivot work (work.length + 1) 0 work.length))
  rw [List.take_append_drop] at h
  exact h

theorem foldl_insertPivot_perm (cmp : Obj → Obj → Int) (rest run : List Obj) :
    (rest.foldl (insertPivot cmp) run).Perm (run ++ rest) := by
  induction rest generalizing run with
  | nil => simp
  | cons x xs ih =>
    simp only [List.foldl_cons]
    refine (ih _).trans ?_
    refine (List.Perm.append_right xs (insertPivot_perm cmp run x)).trans ?_
    simpa using (@List.perm_middle _ x run xs).symm

theorem v8ArraySort_perm (cmp : Obj → Obj → Int) (xs : List Obj) :
    (v8ArraySort cmp xs).Perm xs := by
  match xs with
  | [] => simp [v8ArraySort]
  | [x] => simp [v8ArraySort]
  | a :: b :: rest =>
    simp only [v8ArraySort]
    refine (foldl_insertPivot_perm cmp _ _).trans ?_
    have hrun : ∀ (n : Nat) (d : Bool),
        ((if d = true then (List.take n (a :: b :: rest)).reverse
          else List.take n (a :: b :: rest)) ++ List.drop n (a :: b :: rest)).Perm
          (a :: b :: rest) := by
      intro n d
      cases d
      · simp only [Bool.false_eq_true, if_false, List.take_append_drop]
        exact List.Perm.refl _
      · simp only [if_true]
        refine (List.Perm.append_right _ (List.reverse_perm _)).trans ?_
        rw [List.take_append_drop]
    exact hrun _ _

theorem nodeRuntime_sortPermutes : nodeRuntime.SortPermutes :=
  fun cmp xs => v8ArraySort_perm cmp xs

/-! ## getLeads: the claims -/

/-- C8, counterexample. After `createLead({})` on the store of `new MemStorage()` a lead
without `firstName` is stored, and `getLeads` with the search `a` returns no total: the search
filter throws a `TypeError` at `lead.firstName.toLowerCase()`. On the store of
`new MemStorage()` itself, whose leads all have the searched fields, `getLeads` with a search
that is the number 5 throws a `TypeError` at `search.toLowerCase()`. -/
theorem getLeads_search_throws_on_lead_without_firstName :
    getLeads nodeRuntime (createLead sampleStorage [] 6 7).2
        { noOptions with search := .str "a" } = .error .typeError ∧
    (mapValues (createLead sampleStorage [] 6 7).2.leadStore).map
        (fun lead => getProp lead "firstName") = [.str "Sarah", .str "John", .undefined] ∧
    (mapValues sampleStorage.leadStore).all searchableLead = true ∧
    getLeads nodeRuntime sampleStorage { noOptions with search := .num 5 }
      = .error .typeError := by
  decide

/-- C8, amended. For every runtime whose sort keeps the elements, every store and every
options object whose search is absent or falsy, or is a string while every stored lead has
the searched fields of the data model (`firstName`, `lastName`, `email` strings, `company` a
string or absent), `getLeads` returns, and its `total` is the number of stored leads that pass
every active filter at once; options that differ in `limit`, `offset`, `sortBy` or
`sortOrder` only give the same total. -/
theorem getLeads_total_is_filtered_count (rt : JsRuntime) (hsort : rt.SortPermutes)
    (s : MemStorage) (options : LeadOptions) (h : searchDefined s options) :
    (∃ page, getLeads rt s options = .ok page ∧
      page.total = (mapValues s.leadStore).countP (passesFilters rt options)) ∧
    ∀ options2 : LeadOptions, options2.search = options.search →
      options2.status = options.status → options2.source = options.source →
      ∃ page2, getLeads rt s options2 = .ok page2 ∧
        page2.total = (mapValues s.leadStore).countP (passesFilters rt options) := by
  have key : ∀ o : LeadOptions, searchDefined s o →
      ∃ page, getLeads rt s o = .ok page ∧
        page.total = (mapValues s.leadStore).countP (passesFilters rt o) := by
    intro o ho
    exact ⟨_, getLeads_eq rt s o ho, sortedFiltered_length rt hsort s o⟩
  refine ⟨key options h, ?_⟩
  intro options2 h1 h2 h3
  have h2d : searchDefined s options2 := by
    unfold searchDefined at h ⊢
    rw [h1]
    exact h
  obtain ⟨page2, hp, ht⟩ := key options2 h2d
  exact ⟨page2, hp, by rw [ht, passesFilters_congr rt options options2 h1 h2 h3]⟩

/-- C8, the amended claim on the store of `new MemStorage()`: the search `SARAH` with the
status `new` counts one lead, whatever the page. -/
theorem getLeads_total_is_filtered_count_witness :
    nodeRuntime.SortPermutes ∧
    searchDefined sampleStorage
      { noOptions with search := .str "SARAH", status := .str "new", limit := .num 0 } ∧
    ∃ page, getLeads nodeRuntime sampleStorage
        { noOptions with search := .str "SARAH", status := .str "new", limit := .num 0 }
          = .ok page ∧ page.total = 1 := by
  refine ⟨nodeRuntime_sortPermutes, by decide, ?_⟩
  obtain ⟨page, hp, ht⟩ := (getLeads_total_is_filtered_count nodeRuntime
    nodeRuntime_sortPermutes sampleStorage
    { noOptions with search := .str "SARAH", status := .str "new", limit := .num 0 }
    (by decide)).1
  exact ⟨page, hp, ht.trans (by decide)⟩

/-- C9, counterexample. After `createLead({ source: "landing", status: "new" })`, the draft
of the capture route for an empty body, on the store of `new MemStorage()`, `getLeads` with
the search `a`, `limit` 1 and `offset` 5 returns no page and no total: an error is raised, the
`TypeError` of the search filter. -/
theorem getLeads_page_throws_on_lead_without_firstName :
    getLeads nodeRuntime
        (createLead sampleStorage [("source", .str "landing"), ("status", .str "new")] 6 7).2
        { noOptions with search := .str "a", limit := .num 1, offset := .num 5 }
      = .error .typeError := by
  decide

/-- C9, amended. For every runtime whose sort keeps the elements, every store and every
options object whose search is absent or falsy, or is a string while every stored lead has
the searched fields of the data model, and all natural numbers `limit` and `offset`:
`getLeads` returns and raises no error; its page holds exactly the elements at the positions
`offset ≤ i < offset + limit` of the sorted filtered list, in that order; the length of the page
is `min(limit, max(0, total - offset))`; `total` is the filtered count; and for
`offset ≥ total` the page is empty. -/
theorem getLeads_page_is_slice (rt : JsRuntime) (hsort : rt.SortPermutes)
    (s : MemStorage) (options : LeadOptions) (limit offset : Nat)
    (hl : options.limit = .num (limit : Int)) (ho : options.offset = .num (offset : Int))
    (h : searchDefined s options) :
    sortedLeads rt s options = .ok (sortedFiltered rt s options) ∧
    ∃ page, getLeads rt s options = .ok page ∧
      page.leads = ((sortedFiltered rt s options).drop offset).take limit ∧
      (∀ i : Nat, page.leads[i]?
        = if i < limit then (sortedFiltered rt s options)[offset + i]? else none) ∧
      page.total = (sortedFiltered rt s options).length ∧
      page.total = (mapValues s.leadStore).countP (passesFilters rt options) ∧
      (page.leads.length : Int)
        = min (limit : Int) (max 0 ((page.total : Int) - (offset : Int))) ∧
      (page.total ≤ offset → page.leads = []) := by
  have hslice : jsSlice (sortedFiltered rt s options)
      (toIntegerOrInfinity rt (some (orDefault options.offset (.num 0))))
      (toIntegerOrInfinity rt
        (jsAdd rt (orDefault options.offset (.num 0)) (orDefault options.limit (.num 10))))
      = ((sortedFiltered rt s options).drop offset).take limit := by
    simp only [hl, ho, orDefault, toIntegerOrInfinity, jsAdd, isStringOrDate, toNumber,
      Bool.or_self, Bool.false_eq_true, if_false, Option.getD_some]
    exact jsSlice_of_nat _ _ _
  refine ⟨sortedLeads_eq rt s options h, _, getLeads_eq rt s options h, ?_, ?_, rfl, ?_, ?_,
    ?_⟩
  · exact hslice
  · intro i
    simp only [hslice]
    rw [List.getElem?_take, List.getElem?_drop]
  · exact sortedFiltered_length rt hsort s options
  · simp only [hslice]
    rw [List.length_take, List.length_drop]
    omega
  · intro hle
    simp only [hslice]
    rw [List.drop_of_length_le hle]
    simp

/-- C9, the amended claim on the store of `new MemStorage()`, where the sorted list is John,
Sarah: with `limit` 1 and `offset` 1 the page is Sarah and the total is 2; with `limit` 1 and
`offset` 5 the page is empty and the total is 2. -/
theorem getLeads_page_is_slice_witness :
    nodeRuntime.SortPermutes ∧
    searchDefined sampleStorage { noOptions with limit := .num 1, offset := .num 1 } ∧
    (∃ page, getLeads nodeRuntime sampleStorage
        { noOptions with limit := .num 1, offset := .num 1 } = .ok page ∧
      page.leads.map (fun lead => getProp lead "firstName") = [.str "Sarah"] ∧
      page.total = 2) ∧
    (∃ page, getLeads nodeRuntime sampleStorage
        { noOptions with limit := .num 1, offset := .num 5 } = .ok page ∧
      page.leads = [] ∧ page.total = 2) := by
  refine ⟨nodeRuntime_sortPermutes, by decide, ?_, ?_⟩
  · obtain ⟨_, page, hp, hleads, _, _, ht, _, _⟩ :=
      getLeads_page_is_slice nodeRuntime nodeRuntime_sortPermutes sampleStorage
        { noOptions with limit := .num 1, offset := .num 1 } 1 1 rfl rfl (by decide)
    refine ⟨page, hp, ?_, ht.trans (by decide)⟩
    rw [hleads]
    decide
  · obtain ⟨_, page, hp, _, _, _, ht, _, hempty⟩ :=
      getLeads_page_is_slice nodeRuntime nodeRuntime_sortPermutes sampleStorage
        { noOptions with limit := .num 1, offset := .num 5 } 1 5 rfl rfl (by decide)
    have ht2 : page.total = 2 := ht.trans (by decide)
    exact ⟨page, hp, hempty (by omega), ht2⟩

/-! ## getLeads: ties under the comparator -/

theorem greaterThan_irrefl (rt : JsRuntime) (v : JsVal) : greaterThan rt v v = false := by
  cases v with
  | str a => simp [greaterThan]
  | undefined => simp [greaterThan, toNumber]
  | null => simp [greaterThan, toNumber]
  | bool b => simp [greaterThan, toNumber]
  | num n => simp [greaterThan, toNumber]
  | date t => cases t <;> simp [greaterThan, toNumber]

theorem compareLeads_tie (rt : JsRuntime) (sortBy sortOrder : JsVal) (a b : Obj)
    (h : getProp a (toJsString rt sortBy) = getProp b (toJsString rt sortBy)) :
    compareLeads rt sortBy sortOrder a b = -1 ∧ compareLeads rt sortBy sortOrder b a = -1 := by
  simp only [compareLeads, h, greaterThan_irrefl]
  simp

/-- C7, at the failing input. The two leads of `new MemStorage()` stand in the store as Sarah,
John and both have `assignedTo: null`. For the sort key `assignedTo` the comparator answers
-1 for the pair in both orders, with `asc` and with `desc`, whatever the runtime; under the
sort of V8 `getLeads` returns them as John, Sarah for both sort orders, and so it does with
no options when both leads were created in the same millisecond. -/
theorem getLeads_tied_leads_come_out_reversed :
    (mapValues sampleStorage.leadStore).map (fun lead => getProp lead "firstName")
      = [.str "Sarah", .str "John"] ∧
    (mapValues sampleStorage.leadStore).map (fun lead => getProp lead "assignedTo")
      = [.null, .null] ∧
    (∀ rt : JsRuntime, ∀ a b : Obj, getProp a "assignedTo" = getProp b "assignedTo" →
      compareLeads rt (.str "assignedTo") (.str "asc") a b = -1 ∧
      compareLeads rt (.str "assignedTo") (.str "asc") b a = -1 ∧
      compareLeads rt (.str "assignedTo") (.str "desc") a b = -1 ∧
      compareLeads rt (.str "assignedTo") (.str "desc") b a = -1) ∧
    (getLeads nodeRuntime sampleStorage
        { noOptions with sortBy := .str "assignedTo", sortOrder := .str "asc" }).map
      (fun page => page.leads.map (fun lead => getProp lead "firstName"))
      = .ok [.str "John", .str "Sarah"] ∧
    (getLeads nodeRuntime sampleStorage
        { noOptions with sortBy := .str "assignedTo", sortOrder := .str "desc" }).map
      (fun page => page.leads.map (fun lead => getProp lead "firstName"))
      = .ok [.str "John", .str "Sarah"] ∧
    (getLeads nodeRuntime (newMemStorage (fun _ => 0)) noOptions).map
      (fun page => page.leads.map (fun lead => getProp lead "firstName"))
      = .ok [.str "John", .str "Sarah"] := by
  refine ⟨by decide, by decide, ?_, by decide, by decide, by decide⟩
  intro rt a b hab
  exact ⟨(compareLeads_tie rt (.str "assignedTo") (.str "asc") a b hab).1,
    (compareLeads_tie rt (.str "assignedTo") (.str "asc") a b hab).2,
    (compareLeads_tie rt (.str "assignedTo") (.str "desc") a b hab).1,
    (compareLeads_tie rt (.str "assignedTo") (.str "desc") a b hab).2⟩

/-! ## Roles -/

theorem mapGet_mapSet_ne (m : JsMap) (k key : JsVal) (v : Obj) (hne : k ≠ key) :
    mapGet (mapSet m k v) key = mapGet m key := by
  induction m with
  | nil => simp [mapSet, mapGet, hne]
  | cons kv rest ih =>
    obtain ⟨a, b⟩ := kv
    by_cases h : a = k
    · have hak : ¬ a = key := fun e => hne (h ▸ e)
      simp [mapSet, mapGet, h, hne]
    · by_cases h2 : a = key
      · subst h2
        simp [mapSet, mapGet, h]
      · simp [mapSet, mapGet, h, h2, ih]

theorem updateUserApproval_isAdmin (s : MemStorage) (id other : JsVal) (isApproved : JsVal)
    (t : Int) :
    (getUser (updateUserApproval s id isApproved t).2 other).map
        (fun user => getProp user "isAdmin")
      = (getUser s other).map (fun user => getProp user "isAdmin") := by
  unfold updateUserApproval getUser
  cases hu : mapGet s.users id with
  | none => rfl
  | some user =>
    simp only
    by_cases ho : id = other
    · subst ho
      rw [mapGet_mapSet_same, hu]
      simp only [Option.map_some', objectLiteral, List.foldl_cons, List.foldl_nil]
      rw [getProp_setProp_ne _ _ _ _ (by decide), getProp_setProp_ne _ _ _ _ (by decide),
        getProp_assign_nil]
    · rw [mapGet_mapSet_ne _ _ _ _ ho]

theorem updateUserCredentials_isAdmin (s : MemStorage) (id other : JsVal)
    (username password : JsVal) (t : Int) :
    (getUser (updateUserCredentials s id username password t).2 other).map
        (fun user => getProp user "isAdmin")
      = (getUser s other).map (fun user => getProp user "isAdmin") := by
  unfold updateUserCredentials getUser
  cases hu : mapGet s.users id with
  | none => rfl
  | some user =>
    simp only
    by_cases ho : id = other
    · subst ho
      rw [mapGet_mapSet_same, hu]
      simp only [Option.map_some', objectLiteral, List.foldl_cons, List.foldl_nil]
      rw [getProp_setProp_ne _ _ _ _ (by decide), getProp_setProp_ne _ _ _ _ (by decide),
        getProp_setProp_ne _ _ _ _ (by decide), getProp_assign_nil]
    · rw [mapGet_mapSet_ne _ _ _ _ ho]

theorem createUser_flags (s : MemStorage) (draft : Obj) (t1 t2 : Int) :
    getProp (createUser s draft t1 t2).1 "isAdmin"
      = .bool (strictEq (getProp draft "username") (.str "admin@example.com")) ∧
    getProp (createUser s draft t1 t2).1 "isApproved"
      = .bool (strictEq (getProp draft "username") (.str "admin@example.com")) := by
  constructor
  · simp only [createUser, objectLiteral, List.foldl_cons, List.foldl_nil]
    rw [getProp_setProp_ne _ _ _ _ (by decide), getProp_setProp_ne _ _ _ _ (by decide),
      getProp_setProp_ne _ _ _ _ (by decide), getProp_setProp_same]
  · simp only [createUser, objectLiteral, List.foldl_cons, List.foldl_nil]
    rw [getProp_setProp_ne _ _ _ _ (by decide), getProp_setProp_ne _ _ _ _ (by decide),
      getProp_setProp_same]

/-- C11. Role comes only from the bootstrap rule: for every store and every draft, the user
that `createUser` returns, which is the user it stores under the id of that user, has
`isAdmin` and `isApproved` both true when the `username` of the draft is
`admin@example.com` and both false otherwise, whatever `isAdmin` or `isApproved` the draft
carries; and after `updateUserApproval` or `updateUserCredentials`, for all their arguments,
every id of the store leads to a user with the `isAdmin` it had before, or to none as
before. -/
theorem createUser_role_from_bootstrap_rule (s : MemStorage) (draft : Obj) (t1 t2 : Int) :
    getUser (createUser s draft t1 t2).2 (getProp (createUser s draft t1 t2).1 "id")
      = some (createUser s draft t1 t2).1 ∧
    (getProp draft "username" = .str "admin@example.com" →
      getProp (createUser s draft t1 t2).1 "isAdmin" = .bool true ∧
      getProp (createUser s draft t1 t2).1 "isApproved" = .bool true) ∧
    (getProp draft "username" ≠ .str "admin@example.com" →
      getProp (createUser s draft t1 t2).1 "isAdmin" = .bool false ∧
      getProp (createUser s draft t1 t2).1 "isApproved" = .bool false) ∧
    (∀ (id other isApproved : JsVal) (t : Int),
      (getUser (updateUserApproval s id isApproved t).2 other).map
          (fun user => getProp user "isAdmin")
        = (getUser s other).map (fun user => getProp user "isAdmin")) ∧
    (∀ (id other username password : JsVal) (t : Int),
      (getUser (updateUserCredentials s id username password t).2 other).map
          (fun user => getProp user "isAdmin")
        = (getUser s other).map (fun user => getProp user "isAdmin")) := by
  refine ⟨?_, ?_, ?_, ?_, ?_⟩
  · simp only [getUser, createUser]
    exact mapGet_mapSet_same _ _ _
  · intro h
    have hb : strictEq (getProp draft "username") (.str "admin@example.com") = true :=
      (strictEq_str_iff _ _).mpr h
    have hf := createUser_flags s draft t1 t2
    rw [hb] at hf
    exact hf
  · intro h
    have hb : strictEq (getProp draft "username") (.str "admin@example.com") = false := by
      cases hc : strictEq (getProp draft "username") (.str "admin@example.com") with
      | false => rfl
      | true => exact absurd ((strictEq_str_iff _ _).mp hc) h
    have hf := createUser_flags s draft t1 t2
    rw [hb] at hf
    exact hf
  · intro id other isApproved t
    exact updateUserApproval_isAdmin s id other isApproved t
  · intro id other username password t
    exact updateUserCredentials_isAdmin s id other username password t

/-- C11 on the store of `new MemStorage()`: a draft `mallory` that carries `isAdmin: true`
and `isApproved: true` is created with both flags false, the draft of the bootstrap username
that carries both as false is created with both true, and a change of credentials of the
created `mallory` to the bootstrap username leaves `isAdmin` false. -/
theorem createUser_role_from_bootstrap_rule_witness :
    getProp (createUser sampleStorage [("username", .str "mallory"), ("isAdmin", .bool true),
        ("isApproved", .bool true)] 8 9).1 "isAdmin" = .bool false ∧
    getProp (createUser sampleStorage [("username", .str "mallory"), ("isAdmin", .bool true),
        ("isApproved", .bool true)] 8 9).1 "isApproved" = .bool false ∧
    getProp (createUser sampleStorage [("username", .str "admin@example.com"),
        ("isAdmin", .bool false), ("isApproved", .bool false)] 8 9).1 "isAdmin" = .bool true ∧
    (getUser (updateUserCredentials
        (createUser sampleStorage [("username", .str "mallory"), ("isAdmin", .bool true),
          ("isApproved", .bool true)] 8 9).2
        (.num 2) (.str "admin@example.com") (.str "x.y") 10).2 (.num 2)).map
        (fun user => getProp user "isAdmin") = some (.bool false) := by
  refine ⟨?_, ?_, ?_, ?_⟩
  · exact ((createUser_role_from_bootstrap_rule sampleStorage
      [("username", .str "mallory"), ("isAdmin", .bool true), ("isApproved", .bool true)]
      8 9).2.2.1 (by decide)).1
  · exact ((createUser_role_from_bootstrap_rule sampleStorage
      [("username", .str "mallory"), ("isAdmin", .bool true), ("isApproved", .bool true)]
      8 9).2.2.1 (by decide)).2
  · exact ((createUser_role_from_bootstrap_rule sampleStorage
      [("username", .str "admin@example.com"), ("isAdmin", .bool false),
        ("isApproved", .bool false)] 8 9).2.1 (by decide)).1
  · exact ((createUser_role_from_bootstrap_rule
      (createUser sampleStorage [("username", .str "mallory"), ("isAdmin", .bool true),
        ("isApproved", .bool true)] 8 9).2 [] 0 0).2.2.2.2
      (.num 2) (.num 2) (.str "admin@example.com") (.str "x.y") 10).trans (by decide)

end Server
